import Mathlib

set_option maxRecDepth 8192

/-!
Verification of the glamour ANSI renderer extensions (kitty text sizing and
image placeholders) against its natural-language specification.

Byte strings of the Go source are modelled as `List Nat` (one entry per byte);
Go pointer-typed optional fields (`*string`, `*bool`, `*uint`) are modelled as
`Option` values, so that "unset" (`nil`) stays distinct from an explicit
zero value.
-/

namespace Glamour

/-- Bytes of a (pure-ASCII) string literal, used to transcribe Go string
literals into the `List Nat` byte-string model. -/

def strBytes (s : String) : List Nat := s.toList.map Char.toNat

/-- `StylePrimitive` from `ansi/style.go`: per-run style attributes.
Go `string` fields become `List Nat`, Go pointer fields become `Option`. -/

structure StylePrimitive where
  BlockPrefix : List Nat := []
  BlockSuffix : List Nat := []
  Prefix : List Nat := []
  PrefixColor : Option (List Nat) := none
  Suffix : List Nat := []
  Color : Option (List Nat) := none
  BackgroundColor : Option (List Nat) := none
  Underline : Option Bool := none
  Bold : Option Bool := none
  Upper : Option Bool := none
  Lower : Option Bool := none
  Title : Option Bool := none
  Italic : Option Bool := none
  CrossedOut : Option Bool := none
  Faint : Option Bool := none
  Conceal : Option Bool := none
  Overlined : Option Bool := none
  Inverse : Option Bool := none
  Blink : Option Bool := none
  Format : List Nat := []
  KittyScale : Option Nat := none
  KittyWidth : Option Nat := none
  KittyNumerator : Option Nat := none
  KittyDenominator : Option Nat := none
  KittyVAlign : Option Nat := none
  KittyHAlign : Option Nat := none
  deriving Repr, DecidableEq

/-- `cascadeStylePrimitive` from `ansi/style.go` (lines 167-279).  The Go body
is straight-line code whose statements each touch a single field: `s := child`
(line 168), the block copying each optional attribute from the parent
(lines 170-191), the `toBlock` framing block (lines 193-198), and one
`if child.X != nil { s.X = child.X }` (resp. `if child.X != "" { ... }`)
override per field (lines 200-276).  The transcription below gathers, for each
field, exactly the assignments that touch it, in source order: optional
attributes read `if child set it then child's else parent's`; the four framing
strings read `if child set it then child's else (if toBlock then parent's else
child's — the value left from s := child)`; `PrefixColor` and `Format` are
never assigned from the parent, so they keep the value from `s := child`
(`Format` modulo its no-op self-override on line 254-256). -/

def cascadeStylePrimitive (parent child : StylePrimitive) (toBlock : Bool) :
    StylePrimitive where
  BlockPrefix := if child.BlockPrefix ≠ [] then child.BlockPrefix
    else if toBlock then parent.BlockPrefix else child.BlockPrefix
  BlockSuffix := if child.BlockSuffix ≠ [] then child.BlockSuffix
    else if toBlock then parent.BlockSuffix else child.BlockSuffix
  Prefix := if child.Prefix ≠ [] then child.Prefix
    else if toBlock then parent.Prefix else child.Prefix
  PrefixColor := child.PrefixColor
  Suffix := if child.Suffix ≠ [] then child.Suffix
    else if toBlock then parent.Suffix else child.Suffix
  Color := if child.Color.isSome then child.Color else parent.Color
  BackgroundColor := if child.BackgroundColor.isSome then child.BackgroundColor
    else parent.BackgroundColor
  Underline := if child.Underline.isSome then child.Underline else parent.Underline
  Bold := if child.Bold.isSome then child.Bold else parent.Bold
  Upper := if child.Upper.isSome then child.Upper else parent.Upper
  Lower := if child.Lower.isSome then child.Lower else parent.Lower
  Title := if child.Title.isSome then child.Title else parent.Title
  Italic := if child.Italic.isSome then child.Italic else parent.Italic
  CrossedOut := if child.CrossedOut.isSome then child.CrossedOut else parent.CrossedOut
  Faint := if child.Faint.isSome then child.Faint else parent.Faint
  Conceal := if child.Conceal.isSome then child.Conceal else parent.Conceal
  Overlined := if child.Overlined.isSome then child.Overlined else parent.Overlined
  Inverse := if child.Inverse.isSome then child.Inverse else parent.Inverse
  Blink := if child.Blink.isSome then child.Blink else parent.Blink
  Format := if child.Format ≠ [] then child.Format else child.Format
  KittyScale := if child.KittyScale.isSome then child.KittyScale else parent.KittyScale
  KittyWidth := if child.KittyWidth.isSome then child.KittyWidth else parent.KittyWidth
  KittyNumerator := if child.KittyNumerator.isSome then child.KittyNumerator
    else parent.KittyNumerator
  KittyDenominator := if child.KittyDenominator.isSome then child.KittyDenominator
    else parent.KittyDenominator
  KittyVAlign := if child.KittyVAlign.isSome then child.KittyVAlign else parent.KittyVAlign
  KittyHAlign := if child.KittyHAlign.isSome then child.KittyHAlign else parent.KittyHAlign

/-- Parent-unless-overridden on one optional attribute: the child's value when
the child sets the field (even explicitly to `false`), the parent's otherwise. -/

def inherit {α : Type} (parentVal childVal : Option α) : Option α :=
  match childVal with
  | some v => some v
  | none => parentVal

/-- Decimal digit list of a natural number (most significant first), the
byte-level meaning of Go's `fmt.Sprintf("%d", v)`; fuel-structured so that it
evaluates by kernel reduction. -/

def decimalDigitsAux : Nat → Nat → List Nat
  | 0, _ => []
  | fuel + 1, n => if n < 10 then [n] else decimalDigitsAux fuel (n / 10) ++ [n % 10]

/-- ASCII decimal representation of a natural number. -/

def decimalRepr (n : Nat) : List Nat := (decimalDigitsAux (n + 1) n).map (· + 48)

/-- `strings.Join(parts, ":")` on byte strings (58 is ASCII for the colon). -/

def joinColon : List (List Nat) → List Nat
  | [] => []
  | [p] => p
  | p :: q :: rest => p ++ [58] ++ joinColon (q :: rest)

/-- `hasKittyTextSizing` from `ansi/kitty_text_sizing.go` lines 41-46: true if
the style sets `KittyScale`, `KittyWidth`, `KittyNumerator` or
`KittyDenominator` (the source does not inspect `KittyVAlign`/`KittyHAlign`). -/

def hasKittyTextSizing (rules : StylePrimitive) : Bool :=
  rules.KittyScale.isSome || rules.KittyWidth.isSome ||
  rules.KittyNumerator.isSome || rules.KittyDenominator.isSome

/-- One `parts` accumulation step of `buildKittyMetadata`: Go\'s
`if rules.X != nil && <range check> { parts = append(parts,
fmt.Sprintf("k=%d", *rules.X)) }` contributes the token `k=<value>` exactly
when the field is set and the range check holds. -/

def metaChunk (field : Option Nat) (inRange : Nat → Bool) (key : List Nat) :
    List (List Nat) :=
  match field with
  | some v => if inRange v then [key ++ decimalRepr v] else []
  | none => []

/-- `buildKittyMetadata`, `parts` accumulation (`ansi/kitty_text_sizing.go`
lines 50-83): the six guarded appends in source order, with the range checks
of the source (`*s > 1 && *s <= 7`, `*w <= 7`, `*n <= 15`, `*d <= 15`,
`*v <= 2`, `*h <= 2`). -/

def kittyMetadataParts (rules : StylePrimitive) : List (List Nat) :=
  metaChunk rules.KittyScale (fun v => 1 < v && v ≤ 7) (strBytes "s=") ++
  metaChunk rules.KittyWidth (fun v => v ≤ 7) (strBytes "w=") ++
  metaChunk rules.KittyNumerator (fun v => v ≤ 15) (strBytes "n=") ++
  metaChunk rules.KittyDenominator (fun v => v ≤ 15) (strBytes "d=") ++
  metaChunk rules.KittyVAlign (fun v => v ≤ 2) (strBytes "v=") ++
  metaChunk rules.KittyHAlign (fun v => v ≤ 2) (strBytes "h=")

/-- `buildKittyMetadata` (lines 50-84): the `key=value` parts joined by `:`. -/

def buildKittyMetadata (rules : StylePrimitive) : List Nat :=
  joinColon (kittyMetadataParts rules)

/-- The metadata parts list carries the key byte `k`:
some `key=value` token starts with `k`. -/

def metadataHasKey (rules : StylePrimitive) (k : Nat) : Prop :=
  ∃ t ∈ kittyMetadataParts rules, t.head? = some k

/-- `KittyTextSizingCapability` from `ansi/kitty_text_sizing.go` lines 246-255. -/

inductive KittyTextSizingCapability where
  | None
  | Width
  | Full
  deriving Repr, DecidableEq

/-- Classification core of `DetectKittyTextSizing`
(`ansi/kitty_text_sizing.go` lines 343-360), as a function of the three
recorded CPR columns (Go `int` columns modelled as `Int`); the raw-mode I/O
and CPR round trips that produce the columns are not modelled. -/

def classifyKittyCPR (col1 col2 col3 : Int) : KittyTextSizingCapability :=
  if col2 = col1 then .None
  else
    let widthSupported := col2 - col1 = 2
    let scaleSupported := col3 - col2 = 2
    if widthSupported ∧ scaleSupported then .Full
    else if widthSupported then .Width
    else .None

/-- Standard base64 alphabet: index 0-25 ↦ `A`-`Z`, 26-51 ↦ `a`-`z`,
52-61 ↦ `0`-`9`, 62 ↦ `+`, 63 ↦ `/`. -/

def b64Char (n : Nat) : Nat :=
  if n < 26 then 65 + n
  else if n < 52 then 97 + (n - 26)
  else if n < 62 then 48 + (n - 52)
  else if n = 62 then 43
  else 47

/-- `base64Encode` (line 404): standard base64 of a byte string, three input
bytes per four output characters, `=`-padded. -/

def base64Encode : List Nat → List Nat
  | [] => []
  | [b0] => [b64Char (b0 / 4), b64Char (b0 % 4 * 16), 61, 61]
  | [b0, b1] =>
      [b64Char (b0 / 4), b64Char (b0 % 4 * 16 + b1 / 16),
       b64Char (b1 % 16 * 4), 61]
  | b0 :: b1 :: b2 :: rest =>
      b64Char (b0 / 4) :: b64Char (b0 % 4 * 16 + b1 / 16) ::
      b64Char (b1 % 16 * 4 + b2 / 64) :: b64Char (b2 % 64) ::
      base64Encode rest

/-- Value of one base64 character, `none` for a byte outside the alphabet. -/

def b64DecodeChar (c : Nat) : Option Nat :=
  if 65 ≤ c ∧ c ≤ 90 then some (c - 65)
  else if 97 ≤ c ∧ c ≤ 122 then some (c - 97 + 26)
  else if 48 ≤ c ∧ c ≤ 57 then some (c - 48 + 52)
  else if c = 43 then some 62
  else if c = 47 then some 63
  else none

/-- Grouped base64 decoding: four characters per three bytes; `=` padding only
in the final quantum; any invalid character or ragged length fails. -/

def b64DecodeGroups : List Nat → Option (List Nat)
  | [] => some []
  | c0 :: c1 :: c2 :: c3 :: rest =>
    match b64DecodeChar c0, b64DecodeChar c1 with
    | some v0, some v1 =>
      if c2 = 61 then
        if c3 = 61 ∧ rest = [] then some [v0 * 4 + v1 / 16] else none
      else
        match b64DecodeChar c2 with
        | some v2 =>
          if c3 = 61 then
            if rest = [] then
              some [v0 * 4 + v1 / 16, v1 % 16 * 16 + v2 / 4]
            else none
          else
            match b64DecodeChar c3 with
            | some v3 =>
              match b64DecodeGroups rest with
              | some tail =>
                  some ((v0 * 4 + v1 / 16) :: (v1 % 16 * 16 + v2 / 4) ::
                        (v2 % 4 * 64 + v3) :: tail)
              | none => none
            | none => none
        | none => none
    | _, _ => none
  | _ => none

/-- `base64Decode` (lines 409-415): Go's decoder drops `\r` (13) and `\n`
(10) before grouping. -/

def base64Decode (s : List Nat) : Option (List Nat) :=
  b64DecodeGroups (s.filter fun c => (c != 13) && (c != 10))

/-- The opening sentinel `KITTY_TEXT_SIZE:` (line 420). -/

def markerP : List Nat := strBytes "KITTY_TEXT_SIZE:"

/-- The closing sentinel `:END_KITTY_TEXT_SIZE` (line 421). -/

def markerS : List Nat := strBytes ":END_KITTY_TEXT_SIZE"

/-- `pat` begins the list `s` (byte-level `strings.HasPrefix s pat`). -/

def listStartsWith : List Nat → List Nat → Bool
  | _, [] => true
  | [], _ :: _ => false
  | a :: s, p :: ps => a == p && listStartsWith s ps

/-- Index of the leftmost occurrence of `pat` in `s` (`strings.Index`),
`none` when absent. -/

def listIndexOf (pat : List Nat) : List Nat → Option Nat
  | [] => if pat.isEmpty then some 0 else none
  | a :: tl =>
      if listStartsWith (a :: tl) pat then some 0
      else (listIndexOf pat tl).map (· + 1)

/-- `strings.Contains` at the byte level. -/

def hasSub (pat s : List Nat) : Bool := (listIndexOf pat s).isSome

/-- Loop body of `DecodeKittyTextSizeMarkers` (lines 423-450), fuel-structured:
find the leftmost opening sentinel; find the closing sentinel at or after it
(`endIdx` is relative to `result[startIdx:]`, then shifted); extract the bytes
between the sentinels; on decode failure remove the whole span, on success
splice the decoded bytes in place of the span; repeat.  (For the pathological
overlap `endIdx < b64Start`, where Go's `result[b64Start:endIdx]` would panic,
the `take`/`drop` extraction yields the empty slice instead; no claim depends
on that case.) -/

def decodeMarkersLoop : Nat → List Nat → List Nat
  | 0, result => result
  | fuel + 1, result =>
    match listIndexOf markerP result with
    | none => result
    | some startIdx =>
      match listIndexOf markerS (result.drop startIdx) with
      | none => result
      | some rel =>
        let endIdx := rel + startIdx
        let b64Start := startIdx + markerP.length
        let b64Content := (result.take endIdx).drop b64Start
        match base64Decode b64Content with
        | none =>
            decodeMarkersLoop fuel
              (result.take startIdx ++ result.drop (endIdx + markerS.length))
        | some decoded =>
            decodeMarkersLoop fuel
              (result.take startIdx ++ decoded ++
               result.drop (endIdx + markerS.length))

/-- `DecodeKittyTextSizeMarkers` (lines 419-453).  The Go loop runs until no
further sentinel pair is found; every iteration shortens `result` by at least
the two sentinel lengths, so `length + 1` units of fuel always suffice. -/

def DecodeKittyTextSizeMarkers (text : List Nat) : List Nat :=
  decodeMarkersLoop (text.length + 1) text

/-- `pat` cannot occur shifted into itself: no nonempty proper border. -/

def noSelfOverlap (pat : List Nat) : Prop :=
  ∀ k < pat.length, 0 < k → pat.drop k ≠ pat.take (pat.length - k)

/-- ASCII upper-casing, modelling the external `x/text` `cases.Upper`
(`language.English`) caser on ASCII bytes. -/

def asciiUpper (s : List Nat) : List Nat :=
  s.map fun c => if 97 ≤ c ∧ c ≤ 122 then c - 32 else c

/-- ASCII lower-casing, modelling `cases.Lower` on ASCII bytes. -/

def asciiLower (s : List Nat) : List Nat :=
  s.map fun c => if 65 ≤ c ∧ c ≤ 90 then c + 32 else c

/-- One byte of title-casing: `atStart` marks a word boundary. -/

def asciiTitleAux : Bool → List Nat → List Nat
  | _, [] => []
  | atStart, c :: rest =>
    if (65 ≤ c ∧ c ≤ 90) ∨ (97 ≤ c ∧ c ≤ 122) then
      (if atStart then (if 97 ≤ c ∧ c ≤ 122 then c - 32 else c)
       else (if 65 ≤ c ∧ c ≤ 90 then c + 32 else c)) ::
      asciiTitleAux false rest
    else c :: asciiTitleAux true rest

/-- ASCII title-casing, modelling `cases.Title` (`language.English`) on ASCII
bytes: first letter of each word upper-cased, the rest lower-cased. -/

def asciiTitle (s : List Nat) : List Nat := asciiTitleAux true s

/-- The case-transform block of `renderText` (`ansi/baseelement.go`
lines 43-51): three independent `if` statements, each recomputing `out` from
the ORIGINAL string `s` (there is no `else` chaining), so a later transform
overwrites an earlier one. -/

def caseTransformed (rules : StylePrimitive) (s : List Nat) : List Nat :=
  let out := s
  let out := if rules.Upper = some true then asciiUpper s else out
  let out := if rules.Lower = some true then asciiLower s else out
  let out := if rules.Title = some true then asciiTitle s else out
  out

/-- A termenv color profile, abstracted to the SGR parameter byte sequences it
produces for a foreground or background color string (the numeric conversion
inside the external `termenv` library is not modelled). -/

structure Profile where
  fgSeq : List Nat → List Nat
  bgSeq : List Nat → List Nat

/-- `strings.Join(parts, ";")` on byte strings (59 is the semicolon). -/

def joinSemi : List (List Nat) → List Nat
  | [] => []
  | [q] => q
  | q :: r :: rest => q ++ [59] ++ joinSemi (r :: rest)

/-- The SGR parameter sequences accumulated by the termenv style chain of
`renderText` (`ansi/baseelement.go` lines 53-79), in that exact order:
foreground, background, underline (4), bold (1), italic (3), crossed-out (9),
overline (53), inverse (7), blink (5). -/

def styleCodes (p : Profile) (rules : StylePrimitive) : List (List Nat) :=
  (match rules.Color with | some c => [p.fgSeq c] | none => []) ++
  (match rules.BackgroundColor with | some c => [p.bgSeq c] | none => []) ++
  (if rules.Underline = some true then [strBytes "4"] else []) ++
  (if rules.Bold = some true then [strBytes "1"] else []) ++
  (if rules.Italic = some true then [strBytes "3"] else []) ++
  (if rules.CrossedOut = some true then [strBytes "9"] else []) ++
  (if rules.Overlined = some true then [strBytes "53"] else []) ++
  (if rules.Inverse = some true then [strBytes "7"] else []) ++
  (if rules.Blink = some true then [strBytes "5"] else [])

/-- As `styleCodes`, with faint (2) appended — the order used by
`applyANSIStyles`/`buildANSIWrapper` (`ansi/kitty_text_sizing.go`
lines 88-123 and 184-233), which unlike `renderText` also apply `Faint`. -/

def styleCodesFaint (p : Profile) (rules : StylePrimitive) : List (List Nat) :=
  styleCodes p rules ++ (if rules.Faint = some true then [strBytes "2"] else [])

/-- termenv `Style.String()`: no attributes leaves the string untouched,
otherwise `ESC [ codes m` before and the reset `ESC [ 0 m` after. -/

def sgrWrap (codes : List (List Nat)) (s : List Nat) : List Nat :=
  if codes.isEmpty then s
  else [27, 91] ++ joinSemi codes ++ [109] ++ s ++ [27, 91, 48, 109]

/-- `renderText` (`ansi/baseelement.go` lines 38-82): empty input writes
nothing; otherwise the case-transformed token wrapped in the style's SGR
attributes. -/

def renderText (p : Profile) (rules : StylePrimitive) (s : List Nat) :
    List Nat :=
  if s.isEmpty then []
  else sgrWrap (styleCodes p rules) (caseTransformed rules s)

/-- `applyANSIStyles` (`ansi/kitty_text_sizing.go` lines 88-123). -/

def applyANSIStyles (p : Profile) (rules : StylePrimitive) (s : List Nat) :
    List Nat :=
  sgrWrap (styleCodesFaint p rules) s

/-- `buildANSIWrapper` (`ansi/kitty_text_sizing.go` lines 184-233): style an
empty string, split at the first reset sequence. -/

def buildANSIWrapper (p : Profile) (rules : StylePrimitive) :
    List Nat × List Nat :=
  let styled := sgrWrap (styleCodesFaint p rules) []
  if styled.length > 0 then
    match listIndexOf [27, 91, 48, 109] styled with
    | some idx => (styled.take idx, [27, 91, 48, 109])
    | none => ([], [])
  else ([], [])

/-- `buildOSC66Output` (`ansi/kitty_text_sizing.go` lines 393-401):
`prefix ++ ESC ] 66 ; meta ; text BEL ++ suffix`, or plain ANSI styling when
no metadata was produced. -/

def buildOSC66Output (p : Profile) (rules : StylePrimitive) (text : List Nat) :
    List Nat :=
  let meta := buildKittyMetadata rules
  if meta = [] then applyANSIStyles p rules text
  else
    let pre := (buildANSIWrapper p rules).1
    let suf := (buildANSIWrapper p rules).2
    pre ++ [27, 93] ++ strBytes "66;" ++ meta ++ strBytes ";" ++ text ++
      [7] ++ suf

/-- After `ESC [`, consume `[0-9;]*` and require `m`; returns the remainder
after a complete SGR sequence. -/

def sgrTail : List Nat → Option (List Nat)
  | [] => none
  | c :: rest =>
    if (48 ≤ c ∧ c ≤ 57) ∨ c = 59 then sgrTail rest
    else if c = 109 then some rest else none

/-- Fuel-structured scanner for `StripANSI`; each step consumes at least one
input byte, so fuel `length + 1` always suffices. -/

def stripANSIAux : Nat → List Nat → List Nat
  | 0, s => s
  | fuel + 1, s =>
    match s with
    | [] => []
    | 27 :: 91 :: rest =>
      (match sgrTail rest with
       | some rem => stripANSIAux fuel rem
       | none => 27 :: stripANSIAux fuel (91 :: rest))
    | c :: rest => c :: stripANSIAux fuel rest

/-- `StripANSI` (`ansi/kitty_text_sizing.go` lines 173-180): removes every
match of the regular expression `ESC \[ [0-9;]* m`. -/

def StripANSI (s : List Nat) : List Nat := stripANSIAux (s.length + 1) s

/-- `GetKittyScaleRows` (`ansi/kitty_text_sizing.go` lines 238-243); the Go
`int` result is `*scale - 1 ≥ 1` or `0`, hence a `Nat`. -/

def GetKittyScaleRows (rules : StylePrimitive) : Nat :=
  match rules.KittyScale with
  | some v => if 1 < v then v - 1 else 0
  | none => 0

/-- The two-byte markdown escapes undone by `escapeReplacer`
(`ansi/baseelement.go` lines 142-161): `\\ \\` \* \_ \{ \} \[ \] \< \>
\( \) \# \+ \- \. \! \|`. -/

def escapeChars : List Nat :=
  [92, 96, 42, 95, 123, 125, 91, 93, 60, 62, 40, 41, 35, 43, 45, 46, 33, 124]

/-- `escapeReplacer.Replace`: scan left to right, a backslash followed by one
of the escapable punctuation bytes collapses to that byte. -/

def escapeReplace : List Nat → List Nat
  | [] => []
  | [c] => [c]
  | c :: d :: rest =>
    if c = 92 ∧ escapeChars.contains d then d :: escapeReplace rest
    else c :: escapeReplace (d :: rest)

/-- Modelled from the spec: §4.3 step 4 — "If a token-format template is
configured, substitute the token into it (single placeholder)".  The Go
`formatToken` (`ansi/baseelement.go` lines 23-36) delegates to the external
`text/template` engine, which is not modelled; the placeholder is
`\x7b\x7b.text\x7d\x7d`. -/

def formatToken (format token : List Nat) : List Nat :=
  match listIndexOf (strBytes "\x7b\x7b.text\x7d\x7d") format with
  | none => format
  | some i =>
      format.take i ++ token ++
      format.drop (i + (strBytes "\x7b\x7b.text\x7d\x7d").length)

/-- `StyleBlock` (`ansi/style.go` lines 79-84); the embedded
`StylePrimitive` is the field `prim`. -/

structure StyleBlock where
  prim : StylePrimitive := {}
  Indent : Option Nat := none
  IndentToken : Option (List Nat) := none
  Margin : Option Nat := none
  deriving Repr, DecidableEq

/-- One block-stack entry: an owned output buffer and a resolved style
(spec §2/§3 `BlockStackEntry`; glamour's `BlockElement`). -/

structure BlockElement where
  Block : List Nat := []
  Style : StyleBlock := {}
  deriving Repr, DecidableEq

/-- Modelled from the spec: §4.2 — the root sentinel entry that always
exists at the bottom of the Block Stack. -/

def rootBlockElement : BlockElement := {}

/-- Modelled from the spec: §4.2 Block Stack operations — the stack is kept
top-first; `current()` is the top, `parent()` the second-from-top, `pop()`
removes the top; the root sentinel backs the accessors.  (The glamour
`BlockStack` type lives in `ansi/renderer.go`, which is not under `src/`.) -/

def bsCurrent (bs : List BlockElement) : BlockElement := bs.headD rootBlockElement

/-- Modelled from the spec: §4.2 — second-from-top entry. -/

def bsParent (bs : List BlockElement) : BlockElement :=
  (bs.drop 1).headD rootBlockElement

/-- Modelled from the spec: §4.2/§4.1 — `bs.With(child)` resolves an inline
style against the current entry's style with `toBlock = false`. -/

def bsWith (bs : List BlockElement) (child : StylePrimitive) : StylePrimitive :=
  cascadeStylePrimitive (bsCurrent bs).Style.prim child false

/-- Modelled from the spec: §4.2 — `pop()` removes the top entry. -/

def bsPop (bs : List BlockElement) : List BlockElement := bs.tail

/-- `bs.Current().Block.Reset()`: clear the buffer of the top entry. -/

def resetCurrentBlock (bs : List BlockElement) : List BlockElement :=
  match bs with
  | [] => []
  | e :: rest => { e with Block := [] } :: rest

/-- `KittyImageConfig` (`ansi/kitty_image.go` lines 13-16); the Go function
field may be nil, hence `Option`.  The cache maps a URL to
`(imageID, cols, rows, exists)`. -/

structure KittyImageConfig where
  Enabled : Bool
  ImageCache : Option (List Nat → Nat × Nat × Nat × Bool)

/-- The slice of `RenderContext` consumed by `BaseElement.Render` and
`ImageElement.Render`: the block stack, the color profile, the two image
styles, and the optional kitty image configuration. -/

structure RenderContext where
  blockStack : List BlockElement
  colorProfile : Profile
  stylesImageText : StylePrimitive
  stylesImage : StylePrimitive
  kittyImageConfig : Option KittyImageConfig

/-- `BaseElement` (`ansi/baseelement.go` lines 16-21). -/

structure BaseElement where
  Token : List Nat := []
  Prefix : List Nat := []
  Suffix : List Nat := []
  Style : StylePrimitive := {}

/-- `BaseElement.doRender` (`ansi/baseelement.go` lines 101-139): element
prefix in the parent's prefix-color, block prefix likewise, styled inline
prefix, then the (optionally templated, backslash-unescaped) token, then the
deferred writes in LIFO order — inline suffix before block suffix.  The
deferred suffix writes run on every exit path; the template engine is
modelled total, so the template error exit does not arise here. -/

def doRender (p : Profile) (st1 st2 : StylePrimitive) (e : BaseElement) :
    List Nat :=
  let prefixStyle := { st1 with Color := st1.PrefixColor }
  let out := renderText p prefixStyle e.Prefix
  let blockPrefixStyle := { st1 with Color := st1.PrefixColor }
  let out := out ++ renderText p blockPrefixStyle st2.BlockPrefix
  let out := out ++ renderText p st2 st2.Prefix
  let s := e.Token
  let s := if st2.Format.length > 0 then formatToken st2.Format s else s
  let out := out ++ renderText p st2 (escapeReplace s)
  let out := out ++ renderText p st2 st2.Suffix
  let out := out ++ renderText p blockPrefixStyle st2.BlockSuffix
  out

/-- `BaseElement.Render` (`ansi/baseelement.go` lines 94-99). -/

def baseElementRender (ctx : RenderContext) (e : BaseElement) : List Nat :=
  doRender ctx.colorProfile (bsCurrent ctx.blockStack).Style.prim
    (bsWith ctx.blockStack e.Style) e

/-- `ImageElement` (`unnamed/part_002` lines 10-16); the unused `Child`
renderer is not modelled. -/

structure ImageElement where
  Text : List Nat := []
  BaseURL : List Nat := []
  URL : List Nat := []
  TextOnly : Bool := false

/-- `strings.TrimSuffix` on byte strings. -/

def trimSuffix (s suf : List Nat) : List Nat :=
  if listStartsWith s.reverse suf.reverse then s.take (s.length - suf.length)
  else s

/-- The UTF-8 bytes of the `" →"` suffix trimmed for text-only images. -/

def arrowSuffix : List Nat := [32, 226, 134, 146]

/-- The standard (non-kitty) image path of `ImageElement.Render`
(`unnamed/part_002` lines 33-65): alt text through the `ImageText` style,
then — unless text-only — the resolved URL with a single-space prefix through
the `Image` style.  `resolveRelativeURL` lives in glamour code not under
`src/` and is abstracted as the `resolve` parameter. -/

def imageStandardRender (resolve : List Nat → List Nat → List Nat)
    (ctx : RenderContext) (e : ImageElement) (w : List Nat) : List Nat :=
  let style := ctx.stylesImageText
  let style := if e.TextOnly then
    { style with Format := trimSuffix style.Format arrowSuffix } else style
  let w := if e.Text.length > 0 then
    w ++ baseElementRender ctx { Token := e.Text, Style := style } else w
  if e.TextOnly then w
  else if e.URL.length > 0 then
    w ++ baseElementRender ctx
      { Token := resolve e.BaseURL e.URL, Prefix := strBytes " ",
        Style := ctx.stylesImage }
  else w

/-- `ImageElement.Render` (`unnamed/part_002` lines 19-66): when kitty images
are enabled and the cache knows the URL, write the
`[KITTY_IMAGE:id=..,cols=..,rows=..]` marker and stop; otherwise fall through
to the standard rendering. -/

def imageElementRender (resolve : List Nat → List Nat → List Nat)
    (ctx : RenderContext) (e : ImageElement) (w : List Nat) : List Nat :=
  match ctx.kittyImageConfig with
  | some cfg =>
    match cfg.ImageCache with
    | some cache =>
      if cfg.Enabled then
        let r := cache e.URL
        if r.2.2.2 then
          w ++ strBytes "[KITTY_IMAGE:id=" ++ decimalRepr r.1 ++
            strBytes ",cols=" ++ decimalRepr r.2.1 ++
            strBytes ",rows=" ++ decimalRepr r.2.2.1 ++ strBytes "]"
        else imageStandardRender resolve ctx e w
      else imageStandardRender resolve ctx e w
    | none => imageStandardRender resolve ctx e w
  | none => imageStandardRender resolve ctx e w

/-- Result of `HeadingElement.Finish`: the block stack and output stream as
left by the call, plus the returned error (`none` on the nil return). -/

structure HeadingFinishResult where
  stack : List BlockElement
  out : List Nat
  err : Option (List Nat)
  deriving Repr

/-- `HeadingElement.Finish` (`ansi/heading.go` lines 63-133).
`kittyEnabled` is the value of `IsKittyTextSizingEnabled()` (the global flag
under its lock); `wrapFn` abstracts the external `reflow/wordwrap` writer,
`marginFn` the `MarginWriter` (glamour code not under `src/`); the Booleans
inject the error outcomes of `flow.Write`, `flow.Close` and `mw.Write`
(each writes to a fallible `io.Writer`).  The debug file append on the scaled
path (lines 78-86) is an environment side effect outside the output stream
and is not modelled.  On the scaled branch: strip escapes from the buffer,
append the style suffix, encode via `buildOSC66Output`, wrap in the base64
sentinel marker, write it, render the ancestor block suffix, write `scale-1`
newlines, reset the buffer and pop.  On the standard branch: word-wrap the
buffer, write through the margin writer, render the style suffix and the
ancestor block suffix, reset the buffer and pop — but each failing write
returns the error immediately, before the reset and pop. -/

def headingFinish (kittyEnabled : Bool) (p : Profile)
    (wrapFn : Nat → List Nat → List Nat) (marginFn : List Nat → List Nat)
    (flowWriteOk flowCloseOk mwWriteOk : Bool) (width : Nat)
    (bs : List BlockElement) (w : List Nat) : HeadingFinishResult :=
  let rules := (bsCurrent bs).Style
  if kittyEnabled && hasKittyTextSizing rules.prim then
    let blockContent := (bsCurrent bs).Block
    let plainText := StripANSI blockContent
    let fullText := plainText ++ rules.prim.Suffix
    let osc66Output := buildOSC66Output p rules.prim fullText
    let marker := markerP ++ base64Encode osc66Output ++ markerS
    let w := w ++ marker
    let w := w ++ renderText p (bsParent bs).Style.prim rules.prim.BlockSuffix
    let extraRows := GetKittyScaleRows rules.prim
    let w := w ++ List.replicate extraRows 10
    ⟨bsPop (resetCurrentBlock bs), w, none⟩
  else
    let flowed := wrapFn width (bsCurrent bs).Block
    if !flowWriteOk then ⟨bs, w, some (strBytes "glamour: error writing bytes")⟩
    else if !flowCloseOk then
      ⟨bs, w, some (strBytes "glamour: error closing flow")⟩
    else if !mwWriteOk then ⟨bs, w, some (strBytes "write error")⟩
    else
      let w := w ++ marginFn flowed
      let w := w ++ renderText p (bsCurrent bs).Style.prim rules.prim.Suffix
      let w := w ++ renderText p (bsParent bs).Style.prim rules.prim.BlockSuffix
      ⟨bsPop (resetCurrentBlock bs), w, none⟩

/-- The all-defaults color profile used for concrete evaluations. -/

def plainProfile : Profile := ⟨fun _ => [], fun _ => []⟩

/-- Style with both `upper` and `title` explicitly set to true. -/

def upperTitleStyle : StylePrimitive := { Upper := some true, Title := some true }

/-- A heading entry whose buffer holds `Hi`, plain style. -/

def cexCur : BlockElement := { Block := strBytes "Hi" }

/-- Style whose only kitty parameter is `KittyVAlign = 1`. -/

def vAlignOnlyStyle : StylePrimitive := { KittyVAlign := some 1 }

/-- Heading stack whose top entry carries the alignment-only style. -/

def vAlignHeadingStack : List BlockElement :=
  [{ Block := strBytes "Hi", Style := { prim := vAlignOnlyStyle } }, rootBlockElement]

/-- Render context with all-default styles, the root sentinel stack, and
graphics disabled. -/

def plainImageContext : RenderContext :=
  ⟨[rootBlockElement], plainProfile, {}, {}, none⟩

/-- Concrete image cache that knows no URL (always `found = false`). -/

def cexCache : List Nat → Nat × Nat × Nat × Bool := fun _ => (7, 2, 3, false)

/-- Render context with kitty graphics enabled over `cexCache`. -/

def cexKittyCtx : RenderContext :=
  { plainImageContext with kittyImageConfig := some ⟨true, some cexCache⟩ }

/-! ## Theorems -/

/-- C1: for every parent style, child style, and either `toBlock` value,
`cascadeStylePrimitive` resolves each optional color attribute, each of the
nine boolean decorations, each of the three case transforms, and each of the
six kitty scaling parameters to the parent's value when the child leaves the
field unset, and to the child's value when the child explicitly sets it
(including an explicit `false`).  The function is a pure Lean function on
structures passed by value (mirroring Go's value semantics), hence it mutates
neither input and is deterministic. -/

theorem cascade_parent_unless_overridden (parent child : StylePrimitive)
    (toBlock : Bool) :
    (cascadeStylePrimitive parent child toBlock).Color =
        inherit parent.Color child.Color ∧
    (cascadeStylePrimitive parent child toBlock).BackgroundColor =
        inherit parent.BackgroundColor child.BackgroundColor ∧
    (cascadeStylePrimitive parent child toBlock).Bold =
        inherit parent.Bold child.Bold ∧
    (cascadeStylePrimitive parent child toBlock).Italic =
        inherit parent.Italic child.Italic ∧
    (cascadeStylePrimitive parent child toBlock).Underline =
        inherit parent.Underline child.Underline ∧
    (cascadeStylePrimitive parent child toBlock).CrossedOut =
        inherit parent.CrossedOut child.CrossedOut ∧
    (cascadeStylePrimitive parent child toBlock).Overlined =
        inherit parent.Overlined child.Overlined ∧
    (cascadeStylePrimitive parent child toBlock).Inverse =
        inherit parent.Inverse child.Inverse ∧
    (cascadeStylePrimitive parent child toBlock).Blink =
        inherit parent.Blink child.Blink ∧
    (cascadeStylePrimitive parent child toBlock).Faint =
        inherit parent.Faint child.Faint ∧
    (cascadeStylePrimitive parent child toBlock).Conceal =
        inherit parent.Conceal child.Conceal ∧
    (cascadeStylePrimitive parent child toBlock).Upper =
        inherit parent.Upper child.Upper ∧
    (cascadeStylePrimitive parent child toBlock).Lower =
        inherit parent.Lower child.Lower ∧
    (cascadeStylePrimitive parent child toBlock).Title =
        inherit parent.Title child.Title ∧
    (cascadeStylePrimitive parent child toBlock).KittyScale =
        inherit parent.KittyScale child.KittyScale ∧
    (cascadeStylePrimitive parent child toBlock).KittyWidth =
        inherit parent.KittyWidth child.KittyWidth ∧
    (cascadeStylePrimitive parent child toBlock).KittyNumerator =
        inherit parent.KittyNumerator child.KittyNumerator ∧
    (cascadeStylePrimitive parent child toBlock).KittyDenominator =
        inherit parent.KittyDenominator child.KittyDenominator ∧
    (cascadeStylePrimitive parent child toBlock).KittyVAlign =
        inherit parent.KittyVAlign child.KittyVAlign ∧
    (cascadeStylePrimitive parent child toBlock).KittyHAlign =
        inherit parent.KittyHAlign child.KittyHAlign := by
  refine ⟨?_, ?_, ?_, ?_, ?_, ?_, ?_, ?_, ?_, ?_, ?_, ?_, ?_, ?_, ?_, ?_,
    ?_, ?_, ?_, ?_⟩
  case refine_1 => cases hc : child.Color <;> simp [cascadeStylePrimitive, hc, inherit]
  case refine_2 => cases hc : child.BackgroundColor <;> simp [cascadeStylePrimitive, hc, inherit]
  case refine_3 => cases hc : child.Bold <;> simp [cascadeStylePrimitive, hc, inherit]
  case refine_4 => cases hc : child.Italic <;> simp [cascadeStylePrimitive, hc, inherit]
  case refine_5 => cases hc : child.Underline <;> simp [cascadeStylePrimitive, hc, inherit]
  case refine_6 => cases hc : child.CrossedOut <;> simp [cascadeStylePrimitive, hc, inherit]
  case refine_7 => cases hc : child.Overlined <;> simp [cascadeStylePrimitive, hc, inherit]
  case refine_8 => cases hc : child.Inverse <;> simp [cascadeStylePrimitive, hc, inherit]
  case refine_9 => cases hc : child.Blink <;> simp [cascadeStylePrimitive, hc, inherit]
  case refine_10 => cases hc : child.Faint <;> simp [cascadeStylePrimitive, hc, inherit]
  case refine_11 => cases hc : child.Conceal <;> simp [cascadeStylePrimitive, hc, inherit]
  case refine_12 => cases hc : child.Upper <;> simp [cascadeStylePrimitive, hc, inherit]
  case refine_13 => cases hc : child.Lower <;> simp [cascadeStylePrimitive, hc, inherit]
  case refine_14 => cases hc : child.Title <;> simp [cascadeStylePrimitive, hc, inherit]
  case refine_15 => cases hc : child.KittyScale <;> simp [cascadeStylePrimitive, hc, inherit]
  case refine_16 => cases hc : child.KittyWidth <;> simp [cascadeStylePrimitive, hc, inherit]
  case refine_17 => cases hc : child.KittyNumerator <;> simp [cascadeStylePrimitive, hc, inherit]
  case refine_18 => cases hc : child.KittyDenominator <;> simp [cascadeStylePrimitive, hc, inherit]
  case refine_19 => cases hc : child.KittyVAlign <;> simp [cascadeStylePrimitive, hc, inherit]
  case refine_20 => cases hc : child.KittyHAlign <;> simp [cascadeStylePrimitive, hc, inherit]

/-- C10: the merged style's token-format template always equals the child's
`Format`; the parent's template is never inherited, for either `toBlock`
value, even when the child's `Format` is empty. -/

theorem cascade_format_never_inherited (parent child : StylePrimitive)
    (toBlock : Bool) :
    (cascadeStylePrimitive parent child toBlock).Format = child.Format := by
  simp only [cascadeStylePrimitive, ite_self]

/-- C3: the capability probe classifies the three recorded cursor columns as:
`C2 == C1` yields None; `C2-C1 == 2` together with `C3-C2 == 2` yields Full;
`C2-C1 == 2` with `C3-C2 ≠ 2` yields WidthOnly; in particular (5,7,9) yields
Full, (5,5,5) yields None, and (5,7,7) yields WidthOnly. -/

theorem classify_kitty_cpr_spec (c1 c2 c3 : Int) :
    (c2 = c1 → classifyKittyCPR c1 c2 c3 = .None) ∧
    (c2 - c1 = 2 → c3 - c2 = 2 → classifyKittyCPR c1 c2 c3 = .Full) ∧
    (c2 - c1 = 2 → c3 - c2 ≠ 2 → classifyKittyCPR c1 c2 c3 = .Width) ∧
    classifyKittyCPR 5 7 9 = .Full ∧
    classifyKittyCPR 5 5 5 = .None ∧
    classifyKittyCPR 5 7 7 = .Width := by
  refine ⟨?_, ?_, ?_, by decide, by decide, by decide⟩ <;>
  · intros
    unfold classifyKittyCPR
    split_ifs <;> simp_all

/-- Witness for C3: the classification theorem applied at the three concrete
probe outcomes named by the claim. -/

theorem classify_kitty_cpr_spec_witness :
    classifyKittyCPR 5 7 9 = .Full ∧ classifyKittyCPR 5 5 5 = .None ∧
    classifyKittyCPR 5 7 7 = .Width :=
  ⟨(classify_kitty_cpr_spec 5 7 9).2.1 (by decide) (by decide),
   (classify_kitty_cpr_spec 5 5 5).1 (by decide),
   (classify_kitty_cpr_spec 5 7 7).2.2.1 (by decide) (by decide)⟩

/-- C8, amended: a key appears in the OSC 66 metadata iff the corresponding
field is explicitly set and within the range the code checks: scale in 2-7
(omitted when ≤ 1), width ≤ 7, numerator ≤ 15, denominator ≤ 15 (no `d > n`
check), vertical and horizontal align ≤ 2; an explicitly configured value
outside these bounds is silently dropped. -/

lemma exists_mem_metaChunk_head (field : Option Nat) (r : Nat → Bool)
    (key : List Nat) (kb k : Nat) (hkey : key = [kb, 61]) :
    (∃ t ∈ metaChunk field r key, t.head? = some k) ↔
      (kb = k ∧ ∃ v, field = some v ∧ r v = true) := by
  subst hkey
  cases field <;> simp [metaChunk] <;> aesop

lemma chunkHeadScale (field : Option Nat) (r : Nat → Bool) (k : Nat) :
    (∃ t ∈ metaChunk field r (strBytes "s="), t.head? = some k) ↔
      (115 = k ∧ ∃ v, field = some v ∧ r v = true) :=
  exists_mem_metaChunk_head field r _ 115 k (by decide)

lemma chunkHeadWidth (field : Option Nat) (r : Nat → Bool) (k : Nat) :
    (∃ t ∈ metaChunk field r (strBytes "w="), t.head? = some k) ↔
      (119 = k ∧ ∃ v, field = some v ∧ r v = true) :=
  exists_mem_metaChunk_head field r _ 119 k (by decide)

lemma chunkHeadNum (field : Option Nat) (r : Nat → Bool) (k : Nat) :
    (∃ t ∈ metaChunk field r (strBytes "n="), t.head? = some k) ↔
      (110 = k ∧ ∃ v, field = some v ∧ r v = true) :=
  exists_mem_metaChunk_head field r _ 110 k (by decide)

lemma chunkHeadDen (field : Option Nat) (r : Nat → Bool) (k : Nat) :
    (∃ t ∈ metaChunk field r (strBytes "d="), t.head? = some k) ↔
      (100 = k ∧ ∃ v, field = some v ∧ r v = true) :=
  exists_mem_metaChunk_head field r _ 100 k (by decide)

lemma chunkHeadVAlign (field : Option Nat) (r : Nat → Bool) (k : Nat) :
    (∃ t ∈ metaChunk field r (strBytes "v="), t.head? = some k) ↔
      (118 = k ∧ ∃ v, field = some v ∧ r v = true) :=
  exists_mem_metaChunk_head field r _ 118 k (by decide)

lemma chunkHeadHAlign (field : Option Nat) (r : Nat → Bool) (k : Nat) :
    (∃ t ∈ metaChunk field r (strBytes "h="), t.head? = some k) ↔
      (104 = k ∧ ∃ v, field = some v ∧ r v = true) :=
  exists_mem_metaChunk_head field r _ 104 k (by decide)

/-- C8, amended: a key appears in the OSC 66 metadata iff the corresponding
field is explicitly set and within the range the code checks: scale in 2-7
(omitted when ≤ 1), width ≤ 7, numerator ≤ 15, denominator ≤ 15 (no `d > n`
check), vertical and horizontal align ≤ 2; an explicitly configured value
outside these bounds is silently dropped. -/

theorem kitty_metadata_key_ranges (rules : StylePrimitive) :
    (metadataHasKey rules 115 ↔
      ∃ v, rules.KittyScale = some v ∧ 1 < v ∧ v ≤ 7) ∧
    (metadataHasKey rules 119 ↔ ∃ v, rules.KittyWidth = some v ∧ v ≤ 7) ∧
    (metadataHasKey rules 110 ↔ ∃ v, rules.KittyNumerator = some v ∧ v ≤ 15) ∧
    (metadataHasKey rules 100 ↔ ∃ v, rules.KittyDenominator = some v ∧ v ≤ 15) ∧
    (metadataHasKey rules 118 ↔ ∃ v, rules.KittyVAlign = some v ∧ v ≤ 2) ∧
    (metadataHasKey rules 104 ↔ ∃ v, rules.KittyHAlign = some v ∧ v ≤ 2) := by
  refine ⟨?_, ?_, ?_, ?_, ?_, ?_⟩ <;>
  · simp only [metadataHasKey, kittyMetadataParts, List.mem_append,
      or_and_right, exists_or, chunkHeadScale, chunkHeadWidth, chunkHeadNum,
      chunkHeadDen, chunkHeadVAlign, chunkHeadHAlign]
    simp

/-- C8, counterexample to the claim as stated: with numerator 5 and
denominator 3 both explicitly configured, the built metadata is `n=5:d=3`,
so the `d` key appears although `d > n` fails (3 > 5 is false): the code
checks only `d ≤ 15` and does not enforce `d > n`. -/

theorem kitty_metadata_d_without_gt_n :
    buildKittyMetadata
        { KittyNumerator := some 5, KittyDenominator := some 3 } =
      strBytes "n=5:d=3" ∧
    ¬ (3 : Nat) > 5 := by decide

example : base64Decode (base64Encode (strBytes "Hi?!")) = some (strBytes "Hi?!") := by decide

example : DecodeKittyTextSizeMarkers
    (strBytes "x" ++ markerP ++ base64Encode (strBytes "a:b;c") ++ markerS ++ strBytes "y") =
    strBytes "xa:b;cy" := by decide

example : DecodeKittyTextSizeMarkers
    (strBytes "KITTY_TEXT_SIZE:" ++ markerP ++ base64Encode [] ++ markerS) = [] := by decide

example : DecodeKittyTextSizeMarkers (strBytes "aKITTY_TEXT_SIZE:xyz") =
    strBytes "aKITTY_TEXT_SIZE:xyz" := by decide

example : DecodeKittyTextSizeMarkers (strBytes "a" ++ markerP ++ strBytes "!!!!" ++ markerS ++ strBytes "b") =
    strBytes "ab" := by decide

/-! ## String-matching lemmas for the sentinel scanner -/

lemma takeLenAppend (u v : List Nat) (n : Nat) :
    (u ++ v).take (u.length + n) = u ++ v.take n := by
  induction u with
  | nil => simp
  | cons x u ih => simp [Nat.succ_add, ih]

lemma dropLenAppend (u v : List Nat) (n : Nat) :
    (u ++ v).drop (u.length + n) = v.drop n := by
  induction u with
  | nil => simp
  | cons x u ih => simp [Nat.succ_add, ih]

lemma listStartsWith_iff (s pat : List Nat) :
    listStartsWith s pat = true ↔ s.take pat.length = pat := by
  induction pat generalizing s with
  | nil => cases s <;> simp [listStartsWith]
  | cons p ps ih =>
    cases s with
    | nil => simp [listStartsWith]
    | cons a s => simp [listStartsWith, Bool.and_eq_true, beq_iff_eq, ih]

lemma listStartsWith_self (pat : List Nat) : listStartsWith pat pat = true := by
  rw [listStartsWith_iff, List.take_length]

lemma listStartsWith_append (u v pat : List Nat)
    (h : listStartsWith u pat = true) : listStartsWith (u ++ v) pat = true := by
  rw [listStartsWith_iff] at h ⊢
  have hlen : pat.length ≤ u.length := by
    have := congrArg List.length h
    simp at this
    omega
  rw [List.take_append_eq_append_take, h, Nat.sub_eq_zero_of_le hlen]
  simp

lemma listIndexOf_eq_none_iff (pat : List Nat) (hp : pat ≠ []) (s : List Nat) :
    listIndexOf pat s = none ↔
      ∀ p, listStartsWith (s.drop p) pat = false := by
  induction s with
  | nil =>
    cases pat with
    | nil => exact absurd rfl hp
    | cons q qs => simp [listIndexOf, listStartsWith]
  | cons a tl ih =>
    simp only [listIndexOf]
    split_ifs with hsw
    · simp only [reduceCtorEq, false_iff, not_forall]
      exact ⟨0, by simp [hsw]⟩
    · simp only [Option.map_eq_none', ih]
      constructor
      · intro h p
        cases p with
        | zero => simpa using Bool.eq_false_iff.mpr hsw
        | succ q => simpa using h q
      · intro h p
        simpa using h (p + 1)

lemma listIndexOf_append_boundary (pat a r : List Nat) (hp : pat ≠ [])
    (hno : ∀ p, p < a.length →
      listStartsWith ((a ++ (pat ++ r)).drop p) pat = false) :
    listIndexOf pat (a ++ (pat ++ r)) = some a.length := by
  induction a with
  | nil =>
    obtain ⟨q, qs, rfl⟩ : ∃ q qs, pat = q :: qs := by
      cases pat with
      | nil => exact absurd rfl hp
      | cons q qs => exact ⟨q, qs, rfl⟩
    have hsw : listStartsWith ((q :: qs) ++ r) (q :: qs) = true :=
      listStartsWith_append (q :: qs) r (q :: qs) (listStartsWith_self _)
    simp only [List.cons_append] at hsw
    simp [listIndexOf, hsw]
  | cons x a ih =>
    have h0 : listStartsWith (x :: (a ++ (pat ++ r))) pat = false := by
      simpa using hno 0 (by simp)
    simp only [List.cons_append, listIndexOf, List.append_eq, h0,
      Bool.false_eq_true, if_false]
    have ihres := ih (fun p hplt => by simpa using hno (p + 1) (by simpa using hplt))
    rw [ihres]
    simp

lemma no_early_occurrence (pat a r : List Nat) (hov : noSelfOverlap pat)
    (hna : ∀ q, listStartsWith (a.drop q) pat = false) :
    ∀ p, p < a.length →
      listStartsWith ((a ++ (pat ++ r)).drop p) pat = false := by
  intro p hp
  by_contra hcon
  have h : listStartsWith ((a ++ (pat ++ r)).drop p) pat = true :=
    eq_true_of_ne_false hcon
  rw [listStartsWith_iff] at h
  have hdrop : (a ++ (pat ++ r)).drop p = a.drop p ++ (pat ++ r) := by
    rw [List.drop_append_eq_append_drop, Nat.sub_eq_zero_of_le (by omega)]
    simp
  rw [hdrop] at h
  have hk : (a.drop p).length = a.length - p := List.length_drop p a
  by_cases hfit : pat.length ≤ a.length - p
  · -- the occurrence fits inside `a.drop p`
    have hfits : (a.drop p).take pat.length = pat := by
      rw [List.take_append_eq_append_take,
        Nat.sub_eq_zero_of_le (by omega)] at h
      simpa using h
    have htrue : listStartsWith (a.drop p) pat = true :=
      (listStartsWith_iff _ _).mpr hfits
    rw [hna p] at htrue
    exact absurd htrue (by simp)
  · -- the occurrence straddles the boundary: `pat` would have a border
    push_neg at hfit
    have hkpos : 0 < a.length - p := by omega
    have hlen2 : (a.drop p).length ≤ pat.length := by rw [hk]; omega
    have hsplit : (a.drop p ++ (pat ++ r)).take pat.length =
        a.drop p ++ pat.take (pat.length - (a.length - p)) := by
      rw [List.take_append_eq_append_take, List.take_of_length_le hlen2, hk,
        List.take_append_eq_append_take,
        Nat.sub_eq_zero_of_le (Nat.sub_le _ _)]
      simp
    rw [hsplit] at h
    have hborder : pat.drop (a.length - p) =
        pat.take (pat.length - (a.length - p)) := by
      conv in pat.drop _ => rw [h.symm]
      have hd := dropLenAppend (a.drop p)
        (pat.take (pat.length - (a.length - p))) 0
      rw [hk] at hd
      simpa using hd
    exact hov (a.length - p) hfit hkpos hborder

/-! ## Locating the sentinels -/

lemma startsWith_false_of_hasSub_false (pat a x : List Nat) (hp : pat ≠ [])
    (h : hasSub pat (a ++ x) = false) :
    ∀ q, listStartsWith (a.drop q) pat = false := by
  have hidx : listIndexOf pat (a ++ x) = none := by
    cases hidx : listIndexOf pat (a ++ x) with
    | none => rfl
    | some i => rw [hasSub, hidx] at h; simp at h
  have hall := (listIndexOf_eq_none_iff pat hp (a ++ x)).mp hidx
  intro q
  by_contra hcon
  have htrue : listStartsWith (a.drop q) pat = true := eq_true_of_ne_false hcon
  have hql : q ≤ a.length := by
    by_contra hq
    push_neg at hq
    rw [List.drop_eq_nil_of_le (by omega)] at htrue
    cases pat with
    | nil => exact absurd rfl hp
    | cons p ps => simp [listStartsWith] at htrue
  have hsup : listStartsWith ((a ++ x).drop q) pat = true := by
    rw [List.drop_append_eq_append_drop, Nat.sub_eq_zero_of_le hql]
    simpa using listStartsWith_append (a.drop q) x pat htrue
  rw [hall q] at hsup
  exact absurd hsup (by simp)

/-- Leftmost occurrence of the opening sentinel in
`a ++ KITTY_TEXT_SIZE: ++ rest` is at `a.length` when no occurrence starts
inside `a`. -/

lemma markerP_index (a rest : List Nat)
    (hna : ∀ q, listStartsWith (a.drop q) markerP = false) :
    listIndexOf markerP (a ++ (markerP ++ rest)) = some a.length :=
  listIndexOf_append_boundary markerP a rest (by decide)
    (no_early_occurrence markerP a rest (by unfold noSelfOverlap; decide) hna)

/-- The closing sentinel cannot begin anywhere inside `KITTY_TEXT_SIZE: ++ C`
when `C` contains neither a colon (58) nor an underscore (95): the only colon
of that string is the sentinel's final byte, and continuing from there would
need `END_KITTY_TEXT_SIZE` — underscore included — to begin `C`. -/

lemma markerS_not_inside (C : List Nat) (hC : ∀ c ∈ C, c ≠ 58 ∧ c ≠ 95) :
    ∀ q, listStartsWith ((markerP ++ C).drop q) markerS = false := by
  have hPv : markerP =
      [75, 73, 84, 84, 89, 95, 84, 69, 88, 84, 95, 83, 73, 90, 69, 58] := by
    decide
  have hSv : markerS =
      [58, 69, 78, 68, 95, 75, 73, 84, 84, 89, 95, 84, 69, 88, 84, 95,
       83, 73, 90, 69] := by decide
  intro q
  by_cases hq : q < 16
  · by_contra hcon
    have htrue := eq_true_of_ne_false hcon
    rw [hPv, hSv] at htrue
    interval_cases q <;> simp [listStartsWith] at htrue
    -- only q = 15 survives byte comparison: there `SW C "END_KITTY_TEXT_SIZE"`
    rw [listStartsWith_iff] at htrue
    have h95 : (95 : Nat) ∈ C := by
      have : (95 : Nat) ∈ [69, 78, 68, 95, 75, 73, 84, 84, 89, 95, 84, 69,
          88, 84, 95, 83, 73, 90, 69] := by decide
      rw [← htrue] at this
      exact List.mem_of_mem_take this
    exact absurd rfl (hC 95 h95).2
  · by_contra hcon
    have htrue := eq_true_of_ne_false hcon
    have hdrop : (markerP ++ C).drop q = C.drop (q - 16) := by
      rw [List.drop_append_eq_append_drop,
        List.drop_eq_nil_of_le (by rw [hPv]; simp; omega)]
      simp [hPv]
    rw [hdrop, listStartsWith_iff] at htrue
    have h58 : (58 : Nat) ∈ C := by
      have hmem : (58 : Nat) ∈ markerS := by decide
      rw [← htrue] at hmem
      exact List.mem_of_mem_drop (List.mem_of_mem_take hmem)
    exact absurd rfl (hC 58 h58).1

/-- Position of the closing sentinel after the opening sentinel and the
colon-free payload. -/

lemma markerS_index (C b : List Nat) (hC : ∀ c ∈ C, c ≠ 58 ∧ c ≠ 95) :
    listIndexOf markerS ((markerP ++ C) ++ (markerS ++ b)) =
      some (markerP.length + C.length) := by
  have h := listIndexOf_append_boundary markerS (markerP ++ C) b (by decide)
    (no_early_occurrence markerS (markerP ++ C) b
      (by unfold noSelfOverlap; decide) (markerS_not_inside C hC))
  simpa using h

/-! ## Base64 correctness -/

lemma b64Char_facts (n : Nat) :
    b64Char n ≠ 58 ∧ b64Char n ≠ 95 ∧ b64Char n ≠ 61 ∧
    b64Char n ≠ 13 ∧ b64Char n ≠ 10 := by
  unfold b64Char
  split_ifs <;> omega

lemma b64DecodeChar_b64Char : ∀ n < 64, b64DecodeChar (b64Char n) = some n := by
  decide

lemma mem_base64Encode_shape :
    ∀ l, ∀ c ∈ base64Encode l, c = 61 ∨ ∃ n, c = b64Char n
  | [] => by simp [base64Encode]
  | [b0] => by
    intro c hc
    simp only [base64Encode, List.mem_cons, List.not_mem_nil, or_false,
      or_self] at hc
    rcases hc with rfl | rfl | rfl
    · exact Or.inr ⟨_, rfl⟩
    · exact Or.inr ⟨_, rfl⟩
    · exact Or.inl rfl
  | [b0, b1] => by
    intro c hc
    simp only [base64Encode, List.mem_cons, List.not_mem_nil, or_false,
      or_self] at hc
    rcases hc with rfl | rfl | rfl | rfl
    · exact Or.inr ⟨_, rfl⟩
    · exact Or.inr ⟨_, rfl⟩
    · exact Or.inr ⟨_, rfl⟩
    · exact Or.inl rfl
  | b0 :: b1 :: b2 :: rest => by
    intro c hc
    simp only [base64Encode, List.mem_cons] at hc
    rcases hc with rfl | rfl | rfl | rfl | h
    · exact Or.inr ⟨_, rfl⟩
    · exact Or.inr ⟨_, rfl⟩
    · exact Or.inr ⟨_, rfl⟩
    · exact Or.inr ⟨_, rfl⟩
    · exact mem_base64Encode_shape rest c h

lemma mem_base64Encode_facts (l : List Nat) (c : Nat) (hc : c ∈ base64Encode l) :
    c ≠ 58 ∧ c ≠ 95 ∧ c ≠ 13 ∧ c ≠ 10 := by
  rcases mem_base64Encode_shape l c hc with h | ⟨n, rfl⟩
  · omega
  · have := b64Char_facts n
    exact ⟨this.1, this.2.1, this.2.2.2.1, this.2.2.2.2⟩

lemma filter_base64Encode (l : List Nat) :
    (base64Encode l).filter (fun c => (c != 13) && (c != 10)) = base64Encode l := by
  rw [List.filter_eq_self]
  intro c hc
  have h := mem_base64Encode_facts l c hc
  simp [h.2.2.1, h.2.2.2]

lemma b64DecodeGroups_encode :
    ∀ l, (∀ b ∈ l, b < 256) → b64DecodeGroups (base64Encode l) = some l
  | [] => by intro _; rfl
  | [b0] => by
    intro hb
    have h0 : b0 < 256 := hb b0 (by simp)
    have c0 := b64DecodeChar_b64Char (b0 / 4) (by omega)
    have c1 := b64DecodeChar_b64Char (b0 % 4 * 16) (by omega)
    have e : b0 % 4 * 16 / 16 = b0 % 4 := by omega
    simp [base64Encode, b64DecodeGroups, c0, c1, e]
    omega
  | [b0, b1] => by
    intro hb
    have h0 : b0 < 256 := hb b0 (by simp)
    have h1 : b1 < 256 := hb b1 (by simp)
    have hne : b64Char (b1 % 16 * 4) ≠ 61 := (b64Char_facts _).2.2.1
    have c0 := b64DecodeChar_b64Char (b0 / 4) (by omega)
    have c1 := b64DecodeChar_b64Char (b0 % 4 * 16 + b1 / 16) (by omega)
    have c2 := b64DecodeChar_b64Char (b1 % 16 * 4) (by omega)
    have e0 : (b0 % 4 * 16 + b1 / 16) / 16 = b0 % 4 := by omega
    have e1 : (b0 % 4 * 16 + b1 / 16) % 16 = b1 / 16 := by omega
    have e2 : b1 % 16 * 4 / 4 = b1 % 16 := by omega
    simp [base64Encode, b64DecodeGroups, c0, c1, c2, hne, e0, e1, e2]
    omega
  | b0 :: b1 :: b2 :: rest => by
    intro hb
    have h0 : b0 < 256 := hb b0 (by simp)
    have h1 : b1 < 256 := hb b1 (by simp)
    have h2 : b2 < 256 := hb b2 (by simp)
    have hne2 : b64Char (b1 % 16 * 4 + b2 / 64) ≠ 61 := (b64Char_facts _).2.2.1
    have hne3 : b64Char (b2 % 64) ≠ 61 := (b64Char_facts _).2.2.1
    have hrec := b64DecodeGroups_encode rest (fun b hbm => hb b (by simp [hbm]))
    have c0 := b64DecodeChar_b64Char (b0 / 4) (by omega)
    have c1 := b64DecodeChar_b64Char (b0 % 4 * 16 + b1 / 16) (by omega)
    have c2 := b64DecodeChar_b64Char (b1 % 16 * 4 + b2 / 64) (by omega)
    have c3 := b64DecodeChar_b64Char (b2 % 64) (by omega)
    have e0 : (b0 % 4 * 16 + b1 / 16) / 16 = b0 % 4 := by omega
    have e1 : (b0 % 4 * 16 + b1 / 16) % 16 = b1 / 16 := by omega
    have e2 : (b1 % 16 * 4 + b2 / 64) / 4 = b1 % 16 := by omega
    have e3 : (b1 % 16 * 4 + b2 / 64) % 4 = b2 / 64 := by omega
    simp [base64Encode, b64DecodeGroups, c0, c1, c2, c3, hne2, hne3, hrec,
      e0, e1, e2, e3]
    omega

/-- Round trip: decoding the standard base64 encoding of a byte string
recovers it. -/

lemma base64_roundtrip (l : List Nat) (hb : ∀ b ∈ l, b < 256) :
    base64Decode (base64Encode l) = some l := by
  rw [base64Decode, filter_base64Encode]
  exact b64DecodeGroups_encode l hb

/-! ## Behaviour of the marker-decoding loop -/

lemma decodeLoop_no_marker (fuel : Nat) (s : List Nat)
    (h : listIndexOf markerP s = none) : decodeMarkersLoop fuel s = s := by
  cases fuel with
  | zero => rfl
  | succ n => simp [decodeMarkersLoop, h]

lemma decodeLoop_no_close (fuel : Nat) (s : List Nat) (i : Nat)
    (h1 : listIndexOf markerP s = some i)
    (h2 : listIndexOf markerS (s.drop i) = none) :
    decodeMarkersLoop fuel s = s := by
  cases fuel with
  | zero => rfl
  | succ n => simp [decodeMarkersLoop, h1, h2]

lemma decodeLoop_step_ok (fuel : Nat) (s : List Nat) (i rel : Nat)
    (decoded : List Nat)
    (h1 : listIndexOf markerP s = some i)
    (h2 : listIndexOf markerS (s.drop i) = some rel)
    (h3 : base64Decode ((s.take (rel + i)).drop (i + markerP.length)) =
      some decoded) :
    decodeMarkersLoop (fuel + 1) s =
      decodeMarkersLoop fuel
        (s.take i ++ decoded ++ s.drop (rel + i + markerS.length)) := by
  simp [decodeMarkersLoop, h1, h2, h3]

lemma decodeLoop_step_fail (fuel : Nat) (s : List Nat) (i rel : Nat)
    (h1 : listIndexOf markerP s = some i)
    (h2 : listIndexOf markerS (s.drop i) = some rel)
    (h3 : base64Decode ((s.take (rel + i)).drop (i + markerP.length)) = none) :
    decodeMarkersLoop (fuel + 1) s =
      decodeMarkersLoop fuel
        (s.take i ++ s.drop (rel + i + markerS.length)) := by
  simp [decodeMarkersLoop, h1, h2, h3]

lemma listIndexOf_eq_none_of_hasSub_false (pat s : List Nat)
    (h : hasSub pat s = false) : listIndexOf pat s = none := by
  cases hx : listIndexOf pat s with
  | none => rfl
  | some i => rw [hasSub, hx] at h; simp at h

/-- The one decoding pass over `a ++ sentinel-wrapped C ++ b`, for a payload
`C` free of colons and underscores: the span decodes (or is stripped) and the
loop then stops on `a ++ d ++ b`. -/

lemma decode_span_core (a C b : List Nat)
    (hC : ∀ c ∈ C, c ≠ 58 ∧ c ≠ 95)
    (hna : ∀ q, listStartsWith (a.drop q) markerP = false) :
    (∀ d, base64Decode C = some d →
      listIndexOf markerP (a ++ d ++ b) = none →
      DecodeKittyTextSizeMarkers
        (a ++ (markerP ++ (C ++ (markerS ++ b)))) = a ++ d ++ b) ∧
    (base64Decode C = none →
      listIndexOf markerP (a ++ b) = none →
      DecodeKittyTextSizeMarkers
        (a ++ (markerP ++ (C ++ (markerS ++ b)))) = a ++ b) := by
  have h1 : listIndexOf markerP (a ++ (markerP ++ (C ++ (markerS ++ b)))) =
      some a.length := markerP_index a _ hna
  have hdrop_s : (a ++ (markerP ++ (C ++ (markerS ++ b)))).drop a.length =
      markerP ++ (C ++ (markerS ++ b)) := by
    have := dropLenAppend a (markerP ++ (C ++ (markerS ++ b))) 0
    simpa using this
  have h2 : listIndexOf markerS
      ((a ++ (markerP ++ (C ++ (markerS ++ b)))).drop a.length) =
      some (markerP.length + C.length) := by
    rw [hdrop_s, ← List.append_assoc]
    exact markerS_index C b hC
  have hs2 : a ++ (markerP ++ (C ++ (markerS ++ b))) =
      (a ++ (markerP ++ C)) ++ (markerS ++ b) := by
    simp [List.append_assoc]
  have hidx1 : markerP.length + C.length + a.length =
      (a ++ (markerP ++ C)).length + 0 := by
    simp [List.length_append]
    omega
  have htake : (a ++ (markerP ++ (C ++ (markerS ++ b)))).take
      (markerP.length + C.length + a.length) = a ++ (markerP ++ C) := by
    rw [hs2, hidx1, takeLenAppend]
    simp
  have hidx2 : a.length + markerP.length = (a ++ markerP).length + 0 := by
    simp [List.length_append]
  have hcontent : ((a ++ (markerP ++ (C ++ (markerS ++ b)))).take
      (markerP.length + C.length + a.length)).drop
      (a.length + markerP.length) = C := by
    rw [htake, ← List.append_assoc, hidx2, dropLenAppend]
    simp
  have hs3 : a ++ (markerP ++ (C ++ (markerS ++ b))) =
      (a ++ (markerP ++ (C ++ markerS))) ++ b := by
    simp [List.append_assoc]
  have hidx3 : markerP.length + C.length + a.length + markerS.length =
      (a ++ (markerP ++ (C ++ markerS))).length + 0 := by
    simp [List.length_append]
    omega
  have hdrop_end : (a ++ (markerP ++ (C ++ (markerS ++ b)))).drop
      (markerP.length + C.length + a.length + markerS.length) = b := by
    rw [hs3, hidx3, dropLenAppend]
    simp
  have htake_a : (a ++ (markerP ++ (C ++ (markerS ++ b)))).take a.length
      = a := by
    have := takeLenAppend a (markerP ++ (C ++ (markerS ++ b))) 0
    simpa using this
  constructor
  · intro d hdec hnone
    have h3 : base64Decode (((a ++ (markerP ++ (C ++ (markerS ++ b)))).take
        (markerP.length + C.length + a.length)).drop
        (a.length + markerP.length)) = some d := by rw [hcontent]; exact hdec
    rw [DecodeKittyTextSizeMarkers,
      decodeLoop_step_ok _ _ a.length (markerP.length + C.length) d h1 h2 h3,
      htake_a, hdrop_end]
    exact decodeLoop_no_marker _ _ hnone
  · intro hdec hnone
    have h3 : base64Decode (((a ++ (markerP ++ (C ++ (markerS ++ b)))).take
        (markerP.length + C.length + a.length)).drop
        (a.length + markerP.length)) = none := by rw [hcontent]; exact hdec
    rw [DecodeKittyTextSizeMarkers,
      decodeLoop_step_fail _ _ a.length (markerP.length + C.length) h1 h2 h3,
      htake_a, hdrop_end]
    exact decodeLoop_no_marker _ _ hnone

/-- C2, amended: for every byte string `text` (colons, semicolons and control
bytes included) and surrounding byte strings `a` and `b` such that the opening
sentinel `KITTY_TEXT_SIZE:` occurs nowhere in `a ++ text ++ b`, the
marker-decoding pass on
`a ++ KITTY_TEXT_SIZE: ++ base64(text) ++ :END_KITTY_TEXT_SIZE ++ b`
recovers `a ++ text ++ b` exactly.  (The byte-range hypothesis reflects that
Go strings are byte strings; without the sentinel-freedom hypothesis the
original claim is refuted by `decode_wrapped_text_cex`.) -/

theorem decode_recovers_wrapped_text (a text b : List Nat)
    (hbytes : ∀ c ∈ text, c < 256)
    (hfree : hasSub markerP (a ++ text ++ b) = false) :
    DecodeKittyTextSizeMarkers
      (a ++ markerP ++ base64Encode text ++ markerS ++ b) = a ++ text ++ b := by
  have hC : ∀ c ∈ base64Encode text, c ≠ 58 ∧ c ≠ 95 := fun c hc =>
    ⟨(mem_base64Encode_facts text c hc).1,
     (mem_base64Encode_facts text c hc).2.1⟩
  have hna : ∀ q, listStartsWith (a.drop q) markerP = false := by
    apply startsWith_false_of_hasSub_false markerP a (text ++ b) (by decide)
    rwa [← List.append_assoc]
  have hcore := (decode_span_core a (base64Encode text) b hC hna).1 text
    (base64_roundtrip text hbytes)
    (listIndexOf_eq_none_of_hasSub_false _ _ hfree)
  rw [show a ++ markerP ++ base64Encode text ++ markerS ++ b =
      a ++ (markerP ++ (base64Encode text ++ (markerS ++ b))) by
    simp [List.append_assoc]]
  exact hcore

/-- Witness for C2 (amended): surrounding text plus a payload containing a
colon, a semicolon and the control bytes BEL and ESC round-trips exactly. -/

theorem decode_recovers_wrapped_text_witness :
    (∀ c ∈ [58, 59, 7, 27], c < 256) ∧
    hasSub markerP (strBytes "before " ++ [58, 59, 7, 27] ++
      strBytes " after") = false ∧
    DecodeKittyTextSizeMarkers
      (strBytes "before " ++ markerP ++ base64Encode [58, 59, 7, 27] ++
        markerS ++ strBytes " after") =
      strBytes "before " ++ [58, 59, 7, 27] ++ strBytes " after" :=
  ⟨by decide, by decide,
   decode_recovers_wrapped_text (strBytes "before ") [58, 59, 7, 27]
     (strBytes " after") (by decide) (by decide)⟩

/-- C2, counterexample to the claim as stated: with the surrounding prefix
`a = "KITTY_TEXT_SIZE:"` (and `text`, `b` empty), the scanner pairs `a` with
the wrapped marker's sentinels, fails to base64-decode the bytes in between,
strips the whole span, and returns the empty string instead of
`a ++ text ++ b`. -/

theorem decode_wrapped_text_cex :
    DecodeKittyTextSizeMarkers
      (strBytes "KITTY_TEXT_SIZE:" ++ markerP ++ base64Encode [] ++
        markerS ++ []) ≠
      strBytes "KITTY_TEXT_SIZE:" ++ ([] : List Nat) ++ [] := by decide

/-- C7, amended: a decode failure is local and non-fatal, but the two failure
modes differ: (i) malformed base64 between a proper sentinel pair — the whole
span (sentinels and content) is removed, the surrounding text is kept, and
scanning continues on what remains; (ii) an opening sentinel with no closing
sentinel after it — the pass stops and returns the remaining text unchanged,
leaving the orphan opening sentinel in place (it is not stripped). -/

theorem decode_marker_failure_handling :
    (∀ a content b,
      base64Decode content = none →
      (∀ c ∈ content, c ≠ 58 ∧ c ≠ 95) →
      hasSub markerP (a ++ b) = false →
      DecodeKittyTextSizeMarkers
        (a ++ markerP ++ content ++ markerS ++ b) = a ++ b) ∧
    (∀ s i, listIndexOf markerP s = some i →
      listIndexOf markerS (s.drop i) = none →
      DecodeKittyTextSizeMarkers s = s) := by
  constructor
  · intro a content b hdec hC hfree
    have hna := startsWith_false_of_hasSub_false markerP a b (by decide) hfree
    have hcore := (decode_span_core a content b hC hna).2 hdec
      (listIndexOf_eq_none_of_hasSub_false _ _ hfree)
    rw [show a ++ markerP ++ content ++ markerS ++ b =
        a ++ (markerP ++ (content ++ (markerS ++ b))) by
      simp [List.append_assoc]]
    exact hcore
  · intro s i h1 h2
    rw [DecodeKittyTextSizeMarkers]
    exact decodeLoop_no_close _ s i h1 h2

/-- Witness for C7 (amended): a malformed span `!!!!` between sentinels is
stripped with the surrounding `a`/`b` kept, and an orphan opening sentinel is
returned unchanged. -/

theorem decode_marker_failure_handling_witness :
    (base64Decode (strBytes "!!!!") = none ∧
     (∀ c ∈ strBytes "!!!!", c ≠ 58 ∧ c ≠ 95) ∧
     hasSub markerP (strBytes "a" ++ strBytes "b") = false ∧
     DecodeKittyTextSizeMarkers
       (strBytes "a" ++ markerP ++ strBytes "!!!!" ++ markerS ++
         strBytes "b") = strBytes "a" ++ strBytes "b") ∧
    (listIndexOf markerP (strBytes "aKITTY_TEXT_SIZE:xyz") = some 1 ∧
     listIndexOf markerS ((strBytes "aKITTY_TEXT_SIZE:xyz").drop 1) = none ∧
     DecodeKittyTextSizeMarkers (strBytes "aKITTY_TEXT_SIZE:xyz") =
       strBytes "aKITTY_TEXT_SIZE:xyz") :=
  ⟨⟨by decide, by decide, by decide,
    decode_marker_failure_handling.1 (strBytes "a") (strBytes "!!!!")
      (strBytes "b") (by decide) (by decide) (by decide)⟩,
   ⟨by decide, by decide,
    decode_marker_failure_handling.2 (strBytes "aKITTY_TEXT_SIZE:xyz") 1
      (by decide) (by decide)⟩⟩

/-- C7, counterexample to the claim as stated: on an unterminated sentinel the
span is NOT stripped — the pass returns the text unchanged, opening sentinel
still present in the output. -/

theorem decode_unterminated_sentinel_kept :
    DecodeKittyTextSizeMarkers (strBytes "aKITTY_TEXT_SIZE:xyz") =
      strBytes "aKITTY_TEXT_SIZE:xyz" ∧
    hasSub markerP
      (DecodeKittyTextSizeMarkers (strBytes "aKITTY_TEXT_SIZE:xyz")) =
      true := by decide

lemma renderText_plain (p : Profile) (s : List Nat) :
    renderText p {} s = s := by
  unfold renderText caseTransformed styleCodes sgrWrap
  cases s <;> simp

lemma escapeReplace_no_backslash :
    ∀ s : List Nat, (92 : Nat) ∉ s → escapeReplace s = s
  | [] => fun _ => rfl
  | [c] => fun _ => rfl
  | c :: d :: rest => fun h => by
    have hc : c ≠ 92 := fun e => h (by simp [e])
    rw [escapeReplace, if_neg (fun hcon => hc hcon.1)]
    have := escapeReplace_no_backslash (d :: rest)
      (fun hm => h (List.mem_cons_of_mem _ hm))
    rw [this]

/-- C6, counterexample to the claim as stated: with `upper = true` and
`title = true` both set, the rendered token is the TITLE-cased `Abc`, not the
upper-cased `ABC` the claimed upper-first precedence requires — each of the
three transform `if`s recomputes from the original token, so the last one
checked wins. -/

theorem case_transform_title_overrides_upper :
    renderText plainProfile upperTitleStyle (strBytes "abc") = strBytes "Abc" ∧
    strBytes "Abc" ≠ strBytes "ABC" ∧
    asciiUpper (strBytes "abc") = strBytes "ABC" := by decide

/-- C6, amended: when several case transforms are explicitly true, the one
applied is the LAST match in the fixed evaluation order upper, lower, title —
title beats lower beats upper — each transform being applied to the original
token. -/

theorem case_transform_last_wins (p : Profile) (rules : StylePrimitive)
    (s : List Nat) (hs : s ≠ []) :
    (rules.Title = some true →
      renderText p rules s = sgrWrap (styleCodes p rules) (asciiTitle s)) ∧
    (rules.Title ≠ some true → rules.Lower = some true →
      renderText p rules s = sgrWrap (styleCodes p rules) (asciiLower s)) ∧
    (rules.Title ≠ some true → rules.Lower ≠ some true →
      rules.Upper = some true →
      renderText p rules s = sgrWrap (styleCodes p rules) (asciiUpper s)) := by
  have hse : s.isEmpty = false := by cases s <;> simp_all
  refine ⟨?_, ?_, ?_⟩
  · intro hT
    simp [renderText, caseTransformed, hse, hT]
  · intro hT hL
    simp [renderText, caseTransformed, hse, hT, hL]
  · intro hT hL hU
    simp [renderText, caseTransformed, hse, hT, hL, hU]

/-- Witness for C6 (amended): on token `abc` with upper and title both set,
rendering applies the title transform. -/

theorem case_transform_last_wins_witness :
    strBytes "abc" ≠ ([] : List Nat) ∧ upperTitleStyle.Title = some true ∧
    renderText plainProfile upperTitleStyle (strBytes "abc") =
      sgrWrap (styleCodes plainProfile upperTitleStyle)
        (asciiTitle (strBytes "abc")) :=
  ⟨by decide, by decide,
   (case_transform_last_wins plainProfile upperTitleStyle (strBytes "abc")
     (by decide)).1 (by decide)⟩

/-- C4, amended: heading finalization resets the buffer and pops exactly one
stack entry on every NORMAL exit — unconditionally on the scaled branch, and
on the standard branch when the word-wrap writes and the margin write all
succeed; a failing write on the standard branch returns the error with the
stack still at its pre-finish depth (no reset, no pop). -/

theorem heading_finish_pop_discipline (kittyEnabled : Bool) (p : Profile)
    (wrapFn : Nat → List Nat → List Nat) (marginFn : List Nat → List Nat)
    (fOk cOk mOk : Bool) (width : Nat) (cur : BlockElement)
    (rest : List BlockElement) (w : List Nat) :
    ((headingFinish kittyEnabled p wrapFn marginFn fOk cOk mOk width
        (cur :: rest) w).err = none →
      (headingFinish kittyEnabled p wrapFn marginFn fOk cOk mOk width
        (cur :: rest) w).stack = rest) ∧
    ((headingFinish kittyEnabled p wrapFn marginFn fOk cOk mOk width
        (cur :: rest) w).err ≠ none →
      (headingFinish kittyEnabled p wrapFn marginFn fOk cOk mOk width
        (cur :: rest) w).stack = cur :: rest) ∧
    ((kittyEnabled && hasKittyTextSizing cur.Style.prim) = true →
      (headingFinish kittyEnabled p wrapFn marginFn fOk cOk mOk width
        (cur :: rest) w).err = none) ∧
    ((kittyEnabled && hasKittyTextSizing cur.Style.prim) = false →
      ((headingFinish kittyEnabled p wrapFn marginFn fOk cOk mOk width
          (cur :: rest) w).err = none ↔
        fOk = true ∧ cOk = true ∧ mOk = true)) := by
  have hcur : bsCurrent (cur :: rest) = cur := rfl
  have hreset : resetCurrentBlock (cur :: rest) = { cur with Block := [] } :: rest := rfl
  simp only [headingFinish, hcur, hreset, bsPop, List.tail_cons]
  cases hbr : kittyEnabled && hasKittyTextSizing cur.Style.prim <;>
    cases fOk <;> cases cOk <;> cases mOk <;> simp_all

/-- Witness for C4 (amended): a successful standard finish pops down to the
root sentinel; the theorem instantiated at that concrete run. -/

theorem heading_finish_pop_discipline_witness :
    (headingFinish false plainProfile (fun _ l => l) id true true true 80
      [cexCur, rootBlockElement] []).err = none ∧
    (headingFinish false plainProfile (fun _ l => l) id true true true 80
      [cexCur, rootBlockElement] []).stack = [rootBlockElement] :=
  ⟨by decide,
   (heading_finish_pop_discipline false plainProfile (fun _ l => l) id
     true true true 80 cexCur [rootBlockElement] []).1 (by decide)⟩

/-- C4, counterexample to the claim as stated: when the margin write fails,
`Finish` returns the error from the standard branch WITHOUT popping — the
stack keeps both entries, so not every exit path pops what the heading
pushed. -/

theorem heading_finish_error_exit_no_pop :
    (headingFinish false plainProfile (fun _ l => l) id true true false 80
      [cexCur, rootBlockElement] []).stack = [cexCur, rootBlockElement] ∧
    (headingFinish false plainProfile (fun _ l => l) id true true false 80
      [cexCur, rootBlockElement] []).err ≠ none := by decide

/-- C5: the scaled-branch predicate `hasKittyTextSizing` ignores
`KittyVAlign` and `KittyHAlign` — contradicting both the claim's "any of the
six scaling parameters" and the function's own doc comment ("has any Kitty
text sizing properties set").  At the failing input — a style whose only
kitty parameter is `v = 1`, with the global flag enabled — `Finish` takes the
standard word-wrap branch and emits no scaled marker, although
`buildKittyMetadata` would materialize `v=1`. -/

theorem haskitty_ignores_alignment :
    hasKittyTextSizing vAlignOnlyStyle = false ∧
    vAlignOnlyStyle.KittyVAlign = some 1 ∧
    hasKittyTextSizing { KittyHAlign := some 2 } = false ∧
    buildKittyMetadata vAlignOnlyStyle = strBytes "v=1" ∧
    (headingFinish true plainProfile (fun _ l => l) id true true true 80
      vAlignHeadingStack []).err = none ∧
    hasSub markerP (headingFinish true plainProfile (fun _ l => l) id
      true true true 80 vAlignHeadingStack []).out = false := by decide

lemma imageStandardRender_kitty_agnostic
    (resolve : List Nat → List Nat → List Nat) (bs : List BlockElement)
    (p : Profile) (s1 s2 : StylePrimitive)
    (k1 k2 : Option KittyImageConfig) (e : ImageElement) (w : List Nat) :
    imageStandardRender resolve ⟨bs, p, s1, s2, k1⟩ e w =
      imageStandardRender resolve ⟨bs, p, s1, s2, k2⟩ e w := rfl

/-- C9: an image whose URL the lookup reports as absent renders byte-for-byte
like the graphics-disabled path (the interception falls through to the same
standard rendering, which never consults the kitty configuration); and under
all-default styles that fallback output is exactly the alt text, one space,
and the resolved URL, nothing more. -/

theorem image_not_found_fallback :
    (∀ (resolve : List Nat → List Nat → List Nat) (ctx : RenderContext)
       (cfg : KittyImageConfig) (cache : List Nat → Nat × Nat × Nat × Bool)
       (e : ImageElement) (w : List Nat) (id cols rows : Nat),
      ctx.kittyImageConfig = some cfg → cfg.ImageCache = some cache →
      cache e.URL = (id, cols, rows, false) →
      imageElementRender resolve ctx e w =
        imageElementRender resolve { ctx with kittyImageConfig := none } e w) ∧
    (∀ (resolve : List Nat → List Nat → List Nat)
       (text baseurl url w : List Nat),
      text ≠ [] → url ≠ [] → (92 : Nat) ∉ text →
      (92 : Nat) ∉ resolve baseurl url →
      imageElementRender resolve plainImageContext
        { Text := text, BaseURL := baseurl, URL := url, TextOnly := false } w =
        w ++ text ++ strBytes " " ++ resolve baseurl url) := by
  constructor
  · intro resolve ctx cfg cache e w id cols rows hc hcache hfound
    obtain ⟨bs, p, s1, s2, kic⟩ := ctx
    simp only at hc
    subst hc
    obtain ⟨en, icache⟩ := cfg
    simp only at hcache
    subst hcache
    cases en
    · exact imageStandardRender_kitty_agnostic resolve bs p s1 s2 _ _ e w
    · simp only [imageElementRender, hfound]
      exact imageStandardRender_kitty_agnostic resolve bs p s1 s2 _ _ e w
  · intro resolve text baseurl url w htext hurl hbs1 hbs2
    have hcas : cascadeStylePrimitive {} {} false = ({} : StylePrimitive) := by
      decide
    have htl : text.length > 0 := List.length_pos.mpr htext
    have hul : url.length > 0 := List.length_pos.mpr hurl
    simp [imageElementRender, plainImageContext, imageStandardRender,
      baseElementRender, bsCurrent, bsWith, doRender, rootBlockElement,
      hcas, renderText_plain, htl, hul,
      escapeReplace_no_backslash text hbs1,
      escapeReplace_no_backslash _ hbs2]

/-- Witness for C9: both parts instantiated — a concrete cache missing the
URL gives output identical to the disabled-graphics context, and the plain
fallback yields the alt text, one space, and the URL. -/

theorem image_not_found_fallback_witness :
    (cexCache (strBytes "u") = ((7 : Nat), (2 : Nat), (3 : Nat), false) ∧
      imageElementRender (fun _ u => u) cexKittyCtx
        { Text := strBytes "alt", URL := strBytes "u" } [] =
      imageElementRender (fun _ u => u)
        { cexKittyCtx with kittyImageConfig := none }
        { Text := strBytes "alt", URL := strBytes "u" } []) ∧
    (strBytes "alt" ≠ ([] : List Nat) ∧
      imageElementRender (fun _ u => u) plainImageContext
        { Text := strBytes "alt", URL := strBytes "u" } [] =
      [] ++ strBytes "alt" ++ strBytes " " ++ strBytes "u") :=
  ⟨⟨rfl,
    image_not_found_fallback.1 (fun _ u => u) cexKittyCtx
      ⟨true, some cexCache⟩ cexCache
      { Text := strBytes "alt", URL := strBytes "u" } [] 7 2 3 rfl rfl rfl⟩,
   ⟨by decide,
    image_not_found_fallback.2 (fun _ u => u) (strBytes "alt") []
      (strBytes "u") [] (by decide) (by decide) (by decide) (by decide)⟩⟩

end Glamour
